import Mathlib

/-!
Verification of the streaming-ingest pipeline of the Arduino-accelerometers
desktop application (Python sources: `modules/sensor_data_manager.py` and
`modules/tcp_client.py`).

The Python code is shallowly embedded: strings are `List Char`, Python floats
are modelled as exact rationals (`ℚ`), the mutable `SensorDataManager` and
`TCPClient` objects become explicit state records, and every operation of the
ingest pipeline (line framing, record parsing, appending to the store,
interval monitoring, the receive-loop body, disconnect) is a Lean function
translated statement by statement from the source.  Python exceptions are
modelled by `Option`/sum-like results; GUI calls (`dpg.set_value`, table rows)
are modelled by the state fields they observably set, except for the
`data_log` table whose only relevant behaviour is that `_update_gui_table`
raises `IndexError` on a line with fewer than five comma-separated fields.
-/

/-! ## Python string primitives -/

/-- Whitespace characters stripped by Python's `str.strip()` (ASCII subset:
space, tab, newline, carriage return, vertical tab, form feed). -/
def isPyWhitespace (c : Char) : Bool :=
  c = ' ' || c = '\t' || c = '\n' || c = '\r' || c = Char.ofNat 11 || c = Char.ofNat 12

/-- Python `s.strip()`: remove leading and trailing whitespace. -/
def pyStrip (s : List Char) : List Char :=
  ((s.dropWhile isPyWhitespace).reverse.dropWhile isPyWhitespace).reverse

/-- Python `s.split(sep)` for a one-character separator: always returns at
least one (possibly empty) field; `"".split(",") = [""]`. -/
def pySplit (sep : Char) : List Char → List (List Char)
  | [] => [[]]
  | c :: rest =>
    let r := pySplit sep rest
    if c = sep then [] :: r
    else
      match r with
      | [] => [[c]]
      | g :: gs => (c :: g) :: gs

/-- Python `s.split(chr, 1)` restricted to the newline separator, returning
`some (before, after)` when the separator occurs, `none` otherwise.  This is
the primitive used by the receive loop's
`line, buffer = buffer.split('\n', 1)` statement. -/
def splitFirstNl : List Char → Option (List Char × List Char)
  | [] => none
  | c :: rest =>
    if c = '\n' then some ([], rest)
    else
      match splitFirstNl rest with
      | none => none
      | some (l, r) => some (c :: l, r)

theorem pySplit_ne_nil (sep : Char) (s : List Char) : pySplit sep s ≠ [] := by
  induction s with
  | nil => simp [pySplit]
  | cons c rest ih =>
    simp only [pySplit]
    split
    · simp
    · match h : pySplit sep rest with
      | [] => simp
      | g :: gs => simp

theorem splitFirstNl_rest_lt {s l r : List Char}
    (h : splitFirstNl s = some (l, r)) : r.length < s.length := by
  induction s generalizing l with
  | nil => simp [splitFirstNl] at h
  | cons c rest ih =>
    by_cases hc : c = '\n'
    · simp only [splitFirstNl, if_pos hc, Option.some.injEq, Prod.mk.injEq] at h
      obtain ⟨h1, h2⟩ := h
      subst h2
      simp
    · simp only [splitFirstNl, if_neg hc] at h
      match hs : splitFirstNl rest with
      | none => rw [hs] at h; simp at h
      | some (l', r') =>
        rw [hs] at h
        simp only [Option.some.injEq, Prod.mk.injEq] at h
        obtain ⟨h1, h2⟩ := h
        subst h2
        have := ih hs
        simp only [List.length_cons]
        omega

/-! ## Python numeric parsing (decimal subset)

`int(...)` and `float(...)` are modelled on the decimal forms the wire
protocol uses: optional sign, digits, and (for floats) an optional single
decimal point.  Exponent notation, `inf`/`nan` and digit underscores are not
modelled; every string the model accepts is accepted by Python with the same
value, and every rejection is a `ValueError` in Python as well. -/

/-- Numeric value of a digit list, most significant first (`foldl`, as the
positional base-10 value). -/
def digitsToNat (l : List Char) : ℕ :=
  l.foldl (fun a c => a * 10 + (c.toNat - 48)) 0

/-- All characters are ASCII digits (an empty list passes). -/
def digitsOnly (l : List Char) : Bool :=
  l.all Char.isDigit

/-- Python `int(s)`: strip, optional sign, at least one digit. -/
def pyInt (s : List Char) : Option ℤ :=
  let t := pyStrip s
  match t with
  | '+' :: rest => if rest ≠ [] ∧ digitsOnly rest then some (digitsToNat rest) else none
  | '-' :: rest => if rest ≠ [] ∧ digitsOnly rest then some (-(digitsToNat rest : ℤ)) else none
  | _ => if t ≠ [] ∧ digitsOnly t then some (digitsToNat t) else none

/-- Powers of ten, written recursively so that kernel reduction can evaluate
parsed literals. -/
def tenPow : ℕ → ℕ
  | 0 => 1
  | n + 1 => 10 * tenPow n

/-- Value of an unsigned decimal body: `intpart` or `intpart.fracpart` with
at least one digit overall (Python accepts `5.`, `.5`, `5.0`, `5`).  The
value `intpart + fracpart / 10 ^ len` is built with `mkRat` over a common
denominator so it evaluates by kernel reduction. -/
def pyFloatBody (t : List Char) : Option ℚ :=
  match pySplit '.' t with
  | [a] => if a ≠ [] ∧ digitsOnly a then some (digitsToNat a) else none
  | [a, b] =>
    if (a ≠ [] ∨ b ≠ []) ∧ digitsOnly a ∧ digitsOnly b then
      some (mkRat (digitsToNat a * tenPow b.length + digitsToNat b) (tenPow b.length))
    else none
  | _ => none

/-- Python `float(s)`: strip, optional sign, decimal body. -/
def pyFloat (s : List Char) : Option ℚ :=
  let t := pyStrip s
  match t with
  | '+' :: rest => pyFloatBody rest
  | '-' :: rest => (pyFloatBody rest).map (fun q => -q)
  | _ => pyFloatBody t

/-- Subtraction on `ℚ` written with `mkRat` so it evaluates by kernel
reduction (`Rat.sub` is `@[irreducible]`); `qsub_eq` identifies it with the
ordinary subtraction. -/
def qsub (a b : ℚ) : ℚ := mkRat (a.num * b.den - b.num * a.den) (a.den * b.den)

/-- Multiplication on `ℚ` written with `mkRat` so it evaluates by kernel
reduction; `qmul_eq` identifies it with the ordinary multiplication. -/
def qmul (a b : ℚ) : ℚ := mkRat (a.num * b.num) (a.den * b.den)

theorem qsub_eq (a b : ℚ) : qsub a b = a - b := (Rat.sub_def' a b).symm

theorem qmul_eq (a b : ℚ) : qmul a b = a * b := by
  rw [qmul, Rat.mkRat_eq_div]
  conv_rhs => rw [← Rat.num_div_den a, ← Rat.num_div_den b]
  rw [div_mul_div_comm]
  push_cast
  ring

/-- Python `round(x)` on a real value: nearest integer, ties to even
(banker's rounding).  The comparisons of the fractional part with one half
are written `2 * r` against `1` so the definition evaluates by kernel
reduction. -/
def pyRound (q : ℚ) : ℤ :=
  let f := q.floor
  let r := qsub q (f : ℚ)
  if qmul 2 r < 1 then f
  else if 1 < qmul 2 r then f + 1
  else if f % 2 = 0 then f else f + 1

/-- Python `min` over a nonempty list of floats: scan keeping the current
minimum, replacing it when a strictly smaller element appears (junk value 0
on an empty list; every use site guards nonemptiness as the source does). -/
def listMinQ : List ℚ → ℚ
  | [] => 0
  | x :: rest => rest.foldl (fun acc y => if y < acc then y else acc) x

/-- Python `min` over a nonempty collection of ints (junk value 0 on empty). -/
def listMinZ : List ℤ → ℤ
  | [] => 0
  | x :: rest => rest.foldl (fun acc y => if y < acc then y else acc) x

example : pyInt ("3".toList) = some 3 := by decide
example : pyInt ("-12".toList) = some (-12) := by decide
example : pyInt ("3.5".toList) = none := by decide
example : pyInt ("abc".toList) = none := by decide
example : pyFloat ("1500.0".toList) = some 1500 := by decide
example : pyFloat ("0.1".toList) = some (mkRat 1 10) := by decide
example : pyFloat ("-5".toList) = some (-5) := by decide
example : pyFloat ("abc".toList) = none := by decide
example : pyRound (mkRat 1 2) = 0 := by decide
example : pyRound (mkRat 3 2) = 2 := by decide
example : pyRound (mkRat (-1) 2) = 0 := by decide
example : pyRound (mkRat 50 1) = 50 := by decide
example : listMinQ [mkRat 1 1, mkRat (-1) 200] = mkRat (-1) 200 := by decide

/-! ## Data model: the `SensorDataManager` state

Faithful embedding of `modules/sensor_data_manager.py`.  Per-sensor storage
(`self.data`, a `defaultdict` of five parallel lists) becomes a total
function from sensor ids to series with the empty series as default;
`self.params` keeps only the two slots the ingest pipeline reads and writes
(`params[2]`, the expected interval, held as the integer its uses convert it
to, and `params[3]`, the actual interval, where `none` models the falsy
sentinel `""`).  The GUI values the pipeline sets (`status`,
`interval_mismatch_info`, `actual_interval_info`) are carried as state
fields; `interval_mismatch_info` is tracked as the Boolean "a warning is
displayed". -/

/-- Messages written to the GUI status bar by the ingest pipeline. -/
inductive StatusMsg where
  /-- Models the `Invalid data` report from `process_line`, carrying the raw line. -/
  | invalidData (line : List Char)
  /-- Models the `Connection lost.` report from the receive loop's error handler. -/
  | connectionLost
  /-- Models the `Connection timed out. Check the hardware.` report from the loop. -/
  | connectionTimedOut
  deriving DecidableEq

/-- The five parallel per-sensor lists of `SensorDataManager.data`.
Timestamps are stored in seconds. -/
structure SensorSeries where
  timestamp : List ℚ
  xdata : List ℚ
  ydata : List ℚ
  zdata : List ℚ
  normalized : List ℚ
  deriving DecidableEq

/-- The empty series a `defaultdict` access creates on first sight. -/
def emptySeries : SensorSeries :=
  { timestamp := [], xdata := [], ydata := [], zdata := [], normalized := [] }

/-- State of one `SensorDataManager` instance. -/
structure ManagerState where
  /-- Field `self.data`: per-sensor series, empty by default. -/
  data : ℤ → SensorSeries
  /-- Field `self.active_sensors` (a Python set; modelled as its insertion list,
  kept duplicate-free by the `not in` guard in `process_line`). -/
  active_sensors : List ℤ
  /-- Field `self.buffer`: carry-over text between socket reads. -/
  buffer : List Char
  /-- Field `self.params[2]`: expected interval in ms (its uses read it through
  `int(...)`, so it is held as the integer 1000 initially). -/
  params2 : ℤ
  /-- Field `self.params[3]`: actual interval in ms; `none` models the initial and
  cleared value `""`. -/
  params3 : Option ℤ
  /-- Field `self.starting_time`: the 8-slot list of per-sensor origin timestamps,
  initially all zero. -/
  starting_time : Fin 8 → ℚ
  /-- Last value written to the `status` GUI element. -/
  status : Option StatusMsg
  /-- Whether the `interval_mismatch_info` GUI element currently shows the
  drift warning (cleared text modelled as `false`). -/
  mismatch_warning : Bool
  /-- Last value written to the `actual_interval_info` GUI element. -/
  actual_interval_info : Option ℤ

/-- The freshly constructed `SensorDataManager`. -/
def initManager : ManagerState :=
  { data := fun _ => emptySeries
    active_sensors := []
    buffer := []
    params2 := 1000
    params3 := none
    starting_time := fun _ => 0
    status := none
    mismatch_warning := false
    actual_interval_info := none }

/-- Python list indexing of the 8-slot `starting_time` list by a possibly
negative sensor id: indices `0..7` address slots directly, `-8..-1` address
from the end, anything else raises `IndexError` (`none`). -/
def pySlot (sid : ℤ) : Option (Fin 8) :=
  if h : 0 ≤ sid ∧ sid < 8 then some ⟨sid.toNat, by omega⟩
  else if h2 : -8 ≤ sid ∧ sid < 0 then some ⟨(sid + 8).toNat, by omega⟩
  else none

/-- The parsing phase of `process_line` (lines 90–93 of
`sensor_data_manager.py`): split on commas, `int` the first field, `float`
the second times `0.001`, and `float` the third to fifth fields
(`data_parts[2:5]`, so fields beyond the fifth are ignored and fewer than
three sliced fields fail the `x, y, z` unpacking).  `none` models the
`ValueError`/`IndexError` caught by `process_line`; no state has been
mutated yet at any failure point. -/
def parseLine (line : List Char) : Option (ℤ × ℚ × ℚ × ℚ × ℚ) :=
  let parts := pySplit ',' line
  match pyInt (parts.getD 0 []) with
  | none => none
  | some sid =>
    match parts.get? 1 with
    | none => none
    | some p1 =>
      match pyFloat p1 with
      | none => none
      | some tms =>
        let t := qmul tms (mkRat 1 1000)
        match (parts.drop 2).take 3 with
        | [pa, pb, pc] =>
          match pyFloat pa, pyFloat pb, pyFloat pc with
          | some x, some y, some z => some (sid, t, x, y, z)
          | _, _, _ => none
        | _ => none

/-- Embedding of `SensorDataManager.process_line`.  An empty line returns unchanged; a
parse failure only reports `Invalid data`; on success the four data lists
are appended, `_normalize_timestamp` runs (fixing `starting_time` on first
computation, with the min over the timestamps just appended to), the
normalized timestamp is appended, and the sensor is added to
`active_sensors` on first sight.  An out-of-range sensor id raises
`IndexError` inside `_normalize_timestamp`, after the four appends but
before the normalized append and the activation — the partially appended
state is kept, as in Python. -/
def process_line (st : ManagerState) (line : List Char) : ManagerState :=
  if line = [] then st
  else
    match parseLine line with
    | none => { st with status := some (.invalidData line) }
    | some (sid, t, x, y, z) =>
      let s := st.data sid
      let s1 : SensorSeries :=
        { s with
          timestamp := s.timestamp ++ [t]
          xdata := s.xdata ++ [x]
          ydata := s.ydata ++ [y]
          zdata := s.zdata ++ [z] }
      let st1 : ManagerState :=
        { st with data := fun j => if j = sid then s1 else st.data j }
      match pySlot sid with
      | none => { st1 with status := some (.invalidData line) }
      | some slot =>
        let st2 : ManagerState :=
          if st1.starting_time slot = 0 then
            { st1 with starting_time :=
                fun j => if j = slot then listMinQ s1.timestamp else st1.starting_time j }
          else st1
        let norm := qsub t (st2.starting_time slot)
        let s2 := { s1 with normalized := s1.normalized ++ [norm] }
        let st3 : ManagerState :=
          { st2 with data := fun j => if j = sid then s2 else st2.data j }
        if sid ∈ st3.active_sensors then st3
        else { st3 with active_sensors := st3.active_sensors ++ [sid] }

/-- Embedding of `SensorDataManager.clear_data`: empties the series, the active set and
the carry-over buffer, resets `params[3]` to the unset sentinel and blanks
the `interval_mismatch_info` warning.  It does not touch `starting_time`,
`params[2]`, `status` or `actual_interval_info`. -/
def clear_data (st : ManagerState) : ManagerState :=
  { st with
    data := fun _ => emptySeries
    active_sensors := []
    buffer := []
    params3 := none
    mismatch_warning := false }

example : process_line initManager ("".toList) = initManager := by rfl
example :
    ((process_line initManager ("3,1500.0,0.1,0.2,9.8".toList)).data 3).timestamp
      = [mkRat 3 2] := by decide
example :
    ((process_line initManager ("3,1500.0,0.1,0.2,9.8".toList)).data 3).normalized
      = [0] := by decide
example :
    (process_line initManager ("3,abc,0.1,0.2,9.8".toList)).status
      = some (.invalidData ("3,abc,0.1,0.2,9.8".toList)) := by decide
example :
    ((process_line initManager ("3,abc,0.1,0.2,9.8".toList)).data 3).timestamp
      = [] := by decide

/-! ## Interval monitor (`TCPClient._update_actual_interval` and
`TCPClient._check_for_interval_mismatch`)

Both methods only touch the shared `SensorDataManager` state and GUI
values, so they are functions on `ManagerState`. -/

/-- Truthiness of `params[3]` under Python `if`/`not`: the sentinel `""`
and the integer `0` are both falsy. -/
def falsyInterval : Option ℤ → Bool
  | none => true
  | some v => v == 0

/-- Embedding of `TCPClient._check_for_interval_mismatch`: when `params[3]` is truthy,
compare `int(params[2]) - int(params[3])` against the 10 ms tolerance and
set or blank the warning text. -/
def check_for_interval_mismatch (st : ManagerState) : ManagerState :=
  if falsyInterval st.params3 then st
  else
    let mismatch := st.params2 - st.params3.getD 0
    if 10 < mismatch.natAbs then { st with mismatch_warning := true }
    else { st with mismatch_warning := false }

/-- Embedding of `TCPClient._update_actual_interval`: if any sensor is active, take the
numerically lowest active sensor as reference; if it has at least two
timestamps and `params[3]` is falsy, set `params[3]` (and the GUI readout)
to `round((t[-1] - t[-2]) * 1000)` and run the mismatch check. -/
def update_actual_interval (st : ManagerState) : ManagerState :=
  if st.active_sensors = [] then st
  else
    let ref := listMinZ st.active_sensors
    let ts := (st.data ref).timestamp
    if 2 ≤ ts.length ∧ falsyInterval st.params3 = true then
      let interval := qmul (qsub (ts.getD (ts.length - 1) 0) (ts.getD (ts.length - 2) 0)) 1000
      let v := pyRound interval
      let st1 : ManagerState :=
        { st with params3 := some v, actual_interval_info := some v }
      check_for_interval_mismatch st1
    else st

/-! ## The `TCPClient` connection state and receive loop -/

/-- State of the `TCPClient` object.  The socket object is reduced to
whether one is present (`self.socket = None` or not); `stop_event` is the
`threading.Event` flag; `connected` is the `self.connected` Boolean.  The
manager state is the shared `data_manager` reference. -/
structure ClientState where
  mgr : ManagerState
  socket : Option Unit
  stop_event : Bool
  connected : Bool

/-- Embedding of `TCPClient.disconnect` — the second definition in the class body (lines
172–177), which overrides the first one by Python class-body semantics: if
connected, set the stop event, close the socket and mark disconnected;
otherwise do nothing.  `none` models the `AttributeError` raised by
`self.socket.close()` if no socket object is present while `connected`
(unreachable from `connect`, which sets both together); the stop event has
already been set at that point. -/
def disconnect (cs : ClientState) : Option ClientState :=
  if cs.connected then
    let cs1 : ClientState := { cs with stop_event := true }
    match cs1.socket with
    | none => none
    | some _ => some { cs1 with connected := false }
  else some cs

/-- One event observed by an iteration of `TCPClient._receive_data`'s
`while True` body: a successful `recv` returning a chunk (a zero-length
read, i.e. peer closed, is `data []`), or one of the exception classes the
loop catches. -/
inductive RecvEvent where
  /-- Call `self.socket.recv(...).decode()` returned this text. -/
  | data (d : List Char)
  /-- Exception `ConnectionResetError` / `BrokenPipeError` / `ConnectionAbortedError`. -/
  | errConnReset
  /-- Exception `TimeoutError`. -/
  | errTimeout

/-- Result of one iteration of the receive loop: continue looping, exit the
loop (`break` after handling a connection error), or die on an uncaught
exception (the thread is killed and the loop never runs again). -/
inductive StepRes where
  | contin (cs : ClientState)
  | exited (cs : ClientState)
  | crashed (cs : ClientState)

/-- The client state carried by a step result. -/
def StepRes.state : StepRes → ClientState
  | .contin cs => cs
  | .exited cs => cs
  | .crashed cs => cs

/-- Discriminators for step results. -/
def StepRes.isContin : StepRes → Bool
  | .contin _ => true
  | _ => false

def StepRes.isExited : StepRes → Bool
  | .exited _ => true
  | _ => false

def StepRes.isCrashed : StepRes → Bool
  | .crashed _ => true
  | _ => false

/-- Outcome of the inner `while '\n' in buffer` loop: normal completion or
an uncaught exception with the state at the point it was raised. -/
inductive LoopOut where
  | ok (m : ManagerState)
  | crash (m : ManagerState)

/-- The `m` carried by a loop outcome. -/
def LoopOut.state : LoopOut → ManagerState
  | .ok m => m
  | .crash m => m

def LoopOut.isOk : LoopOut → Bool
  | .ok _ => true
  | .crash _ => false

/-- Embedding of `_update_gui_table(line)`: it runs a split of the stripped line and then
reads `parts[0]`, `parts[2]`, `parts[3]`, `parts[4]`, `parts[1]`; it
completes without error exactly when the stripped line has at least five
comma-separated fields, and raises `IndexError` otherwise.  This predicate
captures that condition (the table rows themselves are not modelled). -/
def gui_table_ok (line : List Char) : Bool :=
  5 ≤ (pySplit ',' (pyStrip line)).length

/-- The `while '\n' in self.data_manager.buffer` loop of `_receive_data`
(lines 77–81): split off the first line, store the remainder back in the
manager's buffer, `process_line` the stripped line, `_update_gui_table` the
line (which raises `IndexError` — uncaught by the enclosing `except`
clauses — when it has fewer than five fields), then
`_update_actual_interval`, and repeat.  `buf` is the current buffer
contents; the manager's `buffer` field is kept in sync exactly as the
Python assignments do. -/
def recvLoopInner (m : ManagerState) (buf : List Char) : LoopOut :=
  match h : splitFirstNl buf with
  | none => .ok { m with buffer := buf }
  | some (line, rest) =>
    let m0 : ManagerState := { m with buffer := rest }
    let m1 := process_line m0 (pyStrip line)
    if gui_table_ok line then
      recvLoopInner (update_actual_interval m1) rest
    else .crash m1
termination_by buf.length
decreasing_by
  exact splitFirstNl_rest_lt h

/-- One iteration of `TCPClient._receive_data`'s `while True` body.  When
the stop event is set, the body does nothing (the loop spins without
reading).  Otherwise the observed event is handled: received text is
appended to the carry-over buffer and the inner line loop runs;
`ConnectionReset`/`BrokenPipe`/`ConnectionAborted` sets the status to
`Connection lost.`, calls `disconnect()` and breaks; `TimeoutError` sets
the timeout status, calls `disconnect()` and breaks.  An uncaught exception
from the inner loop (or from a hypothetical failing `disconnect`) kills the
thread (`crashed`). -/
def receiveStep (cs : ClientState) (ev : RecvEvent) : StepRes :=
  if cs.stop_event then .contin cs
  else
    match ev with
    | .data d =>
      let m0 : ManagerState := { cs.mgr with buffer := cs.mgr.buffer ++ d }
      match recvLoopInner m0 m0.buffer with
      | .ok m => .contin { cs with mgr := m }
      | .crash m => .crashed { cs with mgr := m }
    | .errConnReset =>
      let cs1 : ClientState := { cs with mgr := { cs.mgr with status := some .connectionLost } }
      match disconnect cs1 with
      | some cs2 => .exited cs2
      | none => .crashed { cs1 with stop_event := true }
    | .errTimeout =>
      let cs1 : ClientState :=
        { cs with mgr := { cs.mgr with status := some .connectionTimedOut } }
      match disconnect cs1 with
      | some cs2 => .exited cs2
      | none => .crashed { cs1 with stop_event := true }

/-! ## The line framer (C2)

`_receive_data`'s `while '\n' in buffer: line, buffer = buffer.split('\n', 1)`
loop, viewed on its own: from a buffer it extracts the list of complete
lines (text between successive newlines) and the trailing partial line.
`extractPy` mirrors the Python loop literally; `extractChars` is a
structurally recursive reformulation used for the proofs, shown equal to
`extractPy`. -/

/-- The framing loop exactly as the source runs it: repeatedly split at the
first newline until none remains. -/
def extractPy (buf : List Char) : List (List Char) × List Char :=
  match h : splitFirstNl buf with
  | none => ([], buf)
  | some (line, rest) =>
    let p := extractPy rest
    (line :: p.1, p.2)
termination_by buf.length
decreasing_by
  exact splitFirstNl_rest_lt h

/-- Structural reformulation of the framing loop. -/
def extractChars : List Char → List (List Char) × List Char
  | [] => ([], [])
  | c :: rest =>
    if c = '\n' then
      let p := extractChars rest
      ([] :: p.1, p.2)
    else
      match extractChars rest with
      | ([], b) => ([], c :: b)
      | (l :: ls, b) => ((c :: l) :: ls, b)

theorem splitFirstNl_eq_none {s : List Char} (h : '\n' ∉ s) :
    splitFirstNl s = none := by
  induction s with
  | nil => rfl
  | cons c rest ih =>
    simp only [List.mem_cons, not_or] at h
    have hc : ¬c = '\n' := fun hc => h.1 hc.symm
    simp only [splitFirstNl, if_neg hc, ih h.2]

theorem splitFirstNl_none_notMem {s : List Char} (h : splitFirstNl s = none) :
    '\n' ∉ s := by
  induction s with
  | nil => simp
  | cons c rest ih =>
    by_cases hc : c = '\n'
    · simp [splitFirstNl, hc] at h
    · simp only [splitFirstNl, if_neg hc] at h
      match hs : splitFirstNl rest with
      | none =>
        intro hmem
        rcases List.mem_cons.mp hmem with h1 | h2
        · exact hc h1.symm
        · exact ih hs h2
      | some (l, r) => rw [hs] at h; simp at h

theorem extractChars_no_newline {s : List Char} (h : '\n' ∉ s) :
    extractChars s = ([], s) := by
  induction s with
  | nil => rfl
  | cons c rest ih =>
    simp only [List.mem_cons, not_or] at h
    have hc : ¬c = '\n' := fun hc => h.1 hc.symm
    simp only [extractChars, if_neg hc, ih h.2]

theorem extractChars_cons_newline {s l r : List Char}
    (h : splitFirstNl s = some (l, r)) :
    extractChars s = (l :: (extractChars r).1, (extractChars r).2) := by
  induction s generalizing l with
  | nil => simp [splitFirstNl] at h
  | cons c rest ih =>
    by_cases hc : c = '\n'
    · simp only [splitFirstNl, if_pos hc, Option.some.injEq, Prod.mk.injEq] at h
      obtain ⟨h1, h2⟩ := h
      subst h1
      subst h2
      simp [extractChars, hc]
    · simp only [splitFirstNl, if_neg hc] at h
      match hs : splitFirstNl rest with
      | none => rw [hs] at h; simp at h
      | some (l', r') =>
        rw [hs] at h
        simp only [Option.some.injEq, Prod.mk.injEq] at h
        obtain ⟨h1, h2⟩ := h
        subst h1
        subst h2
        have hrec := ih hs
        simp only [extractChars, if_neg hc, hrec]

theorem extractPy_eq_extractChars (s : List Char) : extractPy s = extractChars s := by
  have H : ∀ n (s : List Char), s.length ≤ n → extractPy s = extractChars s := by
    intro n
    induction n with
    | zero =>
      intro s hs
      have : s = [] := List.length_eq_zero.mp (Nat.le_zero.mp hs)
      subst this
      rw [extractPy.eq_def]
      simp [splitFirstNl, extractChars]
    | succ n ih =>
      intro s hs
      rw [extractPy.eq_def]
      split
      · rename_i h
        rw [extractChars_no_newline (splitFirstNl_none_notMem h)]
      · rename_i line rest h
        have hlt := splitFirstNl_rest_lt h
        rw [extractChars_cons_newline h]
        simp only []
        rw [ih rest (by omega)]
  exact H s.length s le_rfl

theorem extractChars_snd_no_newline (s : List Char) : '\n' ∉ (extractChars s).2 := by
  induction s with
  | nil => simp [extractChars]
  | cons c rest ih =>
    by_cases hc : c = '\n'
    · simp only [extractChars, if_pos hc]
      exact ih
    · simp only [extractChars, if_neg hc]
      match h : extractChars rest with
      | ([], b) =>
        rw [h] at ih
        simp only [List.mem_cons, not_or]
        exact ⟨fun he => hc he.symm, ih⟩
      | (l :: ls, b) =>
        rw [h] at ih
        exact ih

theorem extractChars_append (x : List Char) :
    ∀ (y b b2 : List Char) (ls ls2 : List (List Char)),
      extractChars x = (ls, b) → extractChars (b ++ y) = (ls2, b2) →
      extractChars (x ++ y) = (ls ++ ls2, b2) := by
  induction x with
  | nil =>
    intro y b b2 ls ls2 h1 h2
    simp only [extractChars, Prod.mk.injEq] at h1
    obtain ⟨hls, hb⟩ := h1
    subst hls
    subst hb
    simpa using h2
  | cons c x ih =>
    intro y b b2 ls ls2 h1 h2
    match hx : extractChars x with
    | (pl, pb) =>
      by_cases hc : c = '\n'
      · simp only [extractChars, if_pos hc, hx, Prod.mk.injEq] at h1
        obtain ⟨hls, hb⟩ := h1
        subst hb
        have hmid := ih y pb b2 pl ls2 hx h2
        rw [List.cons_append]
        simp only [extractChars, if_pos hc, hmid]
        rw [← hls]
        simp
      · cases pl with
        | nil =>
          simp only [extractChars, if_neg hc, hx, Prod.mk.injEq] at h1
          obtain ⟨hls, hb⟩ := h1
          subst hls
          subst hb
          rw [List.cons_append] at h2
          match hE : extractChars (pb ++ y) with
          | (el, eb) =>
            have hmid := ih y pb eb [] el hx hE
            simp only [List.nil_append] at hmid
            rw [List.cons_append]
            cases el with
            | nil =>
              simp only [extractChars, if_neg hc, hE, Prod.mk.injEq] at h2
              obtain ⟨h2a, h2b⟩ := h2
              subst h2a
              subst h2b
              simp only [extractChars, if_neg hc, hmid]
              simp
            | cons l2 els =>
              simp only [extractChars, if_neg hc, hE, Prod.mk.injEq] at h2
              obtain ⟨h2a, h2b⟩ := h2
              subst h2a
              subst h2b
              simp only [extractChars, if_neg hc, hmid]
              simp
        | cons l pls =>
          simp only [extractChars, if_neg hc, hx, Prod.mk.injEq] at h1
          obtain ⟨hls, hb⟩ := h1
          subst hls
          subst hb
          match hE : extractChars (pb ++ y) with
          | (el, eb) =>
            rw [hE] at h2
            simp only [Prod.mk.injEq] at h2
            obtain ⟨h2a, h2b⟩ := h2
            subst h2a
            subst h2b
            have hmid := ih y pb eb (l :: pls) el hx hE
            rw [List.cons_append]
            simp only [extractChars, if_neg hc, hmid]
            simp

/-- Running the framer incrementally: each arriving chunk is appended to the
carry-over buffer (`self.data_manager.buffer += data`) and the framing loop
is run, emitting complete lines and keeping the trailing partial line as the
new carry-over.  Returns all emitted lines in order and the final carry-over
buffer. -/
def feedChunks (buf : List Char) : List (List Char) → List (List Char) × List Char
  | [] => ([], buf)
  | ch :: chs =>
    let p := extractPy (buf ++ ch)
    let q := feedChunks p.2 chs
    (p.1 ++ q.1, q.2)

theorem feedChunks_eq_extract (chunks : List (List Char)) :
    ∀ buf : List Char, '\n' ∉ buf →
      feedChunks buf chunks = extractChars (buf ++ chunks.flatten) := by
  induction chunks with
  | nil =>
    intro buf hbuf
    simp only [feedChunks, List.flatten_nil, List.append_nil]
    rw [extractChars_no_newline hbuf]
  | cons ch chs ih =>
    intro buf hbuf
    simp only [feedChunks, List.flatten_cons]
    rw [extractPy_eq_extractChars]
    match hE : extractChars (buf ++ ch) with
    | (el, eb) =>
      have hq := ih eb (by
        have := extractChars_snd_no_newline (buf ++ ch)
        rw [hE] at this
        exact this)
      match hQ : extractChars (eb ++ chs.flatten) with
      | (ql, qb) =>
        rw [hQ] at hq
        have hA := extractChars_append (buf ++ ch) chs.flatten eb qb el ql hE hQ
        simp only [List.append_assoc] at hA
        simp only [hq, hA]

theorem recvLoopInner_done (m : ManagerState) (buf : List Char)
    (h : splitFirstNl buf = none) :
    recvLoopInner m buf = .ok { m with buffer := buf } := by
  rw [recvLoopInner.eq_def, h]

theorem recvLoopInner_step (m : ManagerState) (buf line rest : List Char)
    (h : splitFirstNl buf = some (line, rest)) :
    recvLoopInner m buf =
      (if gui_table_ok line then
        recvLoopInner (update_actual_interval
          (process_line { m with buffer := rest } (pyStrip line))) rest
      else .crash (process_line { m with buffer := rest } (pyStrip line))) := by
  rw [recvLoopInner.eq_def, h]

/-! ## Frame lemmas for `process_line` -/

theorem process_line_params3 (st : ManagerState) (line : List Char) :
    (process_line st line).params3 = st.params3 := by
  simp only [process_line]
  repeat' split
  all_goals rfl

theorem process_line_params2 (st : ManagerState) (line : List Char) :
    (process_line st line).params2 = st.params2 := by
  simp only [process_line]
  repeat' split
  all_goals rfl

theorem process_line_buffer (st : ManagerState) (line : List Char) :
    (process_line st line).buffer = st.buffer := by
  simp only [process_line]
  repeat' split
  all_goals rfl

theorem process_line_mismatch_warning (st : ManagerState) (line : List Char) :
    (process_line st line).mismatch_warning = st.mismatch_warning := by
  simp only [process_line]
  repeat' split
  all_goals rfl

theorem process_line_data_of_parse_fail (st : ManagerState) (line : List Char)
    (hp : parseLine line = none) :
    (process_line st line).data = st.data ∧
    (process_line st line).starting_time = st.starting_time ∧
    (process_line st line).active_sensors = st.active_sensors := by
  by_cases hl : line = []
  · simp [process_line, hl]
  · simp [process_line, hl, hp]

theorem process_line_data_other (st : ManagerState) (line : List Char)
    (sid : ℤ) (t x y z : ℚ) (j : ℤ)
    (hp : parseLine line = some (sid, t, x, y, z)) (hj : j ≠ sid) :
    (process_line st line).data j = st.data j := by
  have hl : line ≠ [] := by
    intro he
    subst he
    rw [show parseLine [] = none from by decide] at hp
    exact Option.noConfusion hp
  simp only [process_line, if_neg hl, hp]
  repeat' split
  all_goals simp [if_neg hj]

theorem parseLine_nil : parseLine [] = none := by decide

theorem parseLine_ne_nil {line : List Char} {p : ℤ × ℚ × ℚ × ℚ × ℚ}
    (hp : parseLine line = some p) : line ≠ [] := by
  intro he
  subst he
  rw [parseLine_nil] at hp
  exact Option.noConfusion hp

/-- Closed form of `process_line` on a successfully parsed line whose sensor
id indexes `starting_time` without error. -/
theorem process_line_success_eq (st : ManagerState) (line : List Char)
    (sid : ℤ) (t x y z : ℚ) (i : Fin 8)
    (hp : parseLine line = some (sid, t, x, y, z))
    (hslot : pySlot sid = some i) :
    process_line st line =
      { st with
        data := fun j => if j = sid then
            { timestamp := (st.data sid).timestamp ++ [t]
              xdata := (st.data sid).xdata ++ [x]
              ydata := (st.data sid).ydata ++ [y]
              zdata := (st.data sid).zdata ++ [z]
              normalized := (st.data sid).normalized ++
                [qsub t (if st.starting_time i = 0 then
                    listMinQ ((st.data sid).timestamp ++ [t])
                  else st.starting_time i)] }
          else st.data j
        starting_time := fun j =>
          if st.starting_time i = 0 ∧ j = i then
            listMinQ ((st.data sid).timestamp ++ [t])
          else st.starting_time j
        active_sensors := if sid ∈ st.active_sensors then st.active_sensors
          else st.active_sensors ++ [sid] } := by
  have hl : line ≠ [] := parseLine_ne_nil hp
  simp only [process_line, if_neg hl, hp, hslot]
  by_cases hz : st.starting_time i = 0
  · rw [if_pos hz]
    by_cases hmem : sid ∈ st.active_sensors
    all_goals simp only [if_pos rfl, hmem, if_true, if_false, ite_true, ite_false]
    all_goals congr 1
    · funext j
      by_cases hj : j = sid
      · simp [hj, hz]
      · simp [hj]
    · funext j
      by_cases hji : j = i
      · simp [hji, hz]
      · simp [hji, hz]
    · funext j
      by_cases hj : j = sid
      · simp [hj, hz]
      · simp [hj]
    · funext j
      by_cases hji : j = i
      · simp [hji, hz]
      · simp [hji, hz]
  · rw [if_neg hz]
    by_cases hmem : sid ∈ st.active_sensors
    all_goals simp only [if_pos rfl, hmem, if_true, if_false, ite_true, ite_false]
    all_goals congr 1
    · funext j
      by_cases hj : j = sid
      · simp [hj, hz]
      · simp [hj]
    · funext j
      simp [hz]
    · funext j
      by_cases hj : j = sid
      · simp [hj, hz]
      · simp [hj]
    · funext j
      simp [hz]

/-- Closed form of `process_line` when the line parses but the sensor id is
outside the index range of the 8-slot `starting_time` list: the four data
lists have already been appended to when `_normalize_timestamp` raises
`IndexError`, so the partial appends are kept, the normalized list and
`active_sensors` are untouched, and the error is reported. -/
theorem process_line_badslot_eq (st : ManagerState) (line : List Char)
    (sid : ℤ) (t x y z : ℚ)
    (hp : parseLine line = some (sid, t, x, y, z))
    (hslot : pySlot sid = none) :
    process_line st line =
      { st with
        data := fun j => if j = sid then
            { timestamp := (st.data sid).timestamp ++ [t]
              xdata := (st.data sid).xdata ++ [x]
              ydata := (st.data sid).ydata ++ [y]
              zdata := (st.data sid).zdata ++ [z]
              normalized := (st.data sid).normalized }
          else st.data j
        status := some (.invalidData line) } := by
  have hl : line ≠ [] := parseLine_ne_nil hp
  simp only [process_line, if_neg hl, hp, hslot]

/-- Closed form of `process_line` on a non-empty line that fails to parse:
only the status report changes. -/
theorem process_line_fail_eq (st : ManagerState) (line : List Char)
    (hl : line ≠ []) (hp : parseLine line = none) :
    process_line st line = { st with status := some (.invalidData line) } := by
  simp only [process_line, if_neg hl, hp]

theorem process_line_empty_eq (st : ManagerState) : process_line st [] = st := by
  simp [process_line]

/-- Lemma: `process_line` never modifies a nonzero `starting_time` slot. -/
theorem process_line_starting_time_of_ne_zero (st : ManagerState) (line : List Char)
    (i : Fin 8) (h : st.starting_time i ≠ 0) :
    (process_line st line).starting_time i = st.starting_time i := by
  by_cases hl : line = []
  · rw [hl, process_line_empty_eq]
  · match hp : parseLine line with
    | none => rw [process_line_fail_eq st line hl hp]
    | some (sid, t, x, y, z) =>
      match hslot : pySlot sid with
      | none => rw [process_line_badslot_eq st line sid t x y z hp hslot]
      | some i0 =>
        rw [process_line_success_eq st line sid t x y z i0 hp hslot]
        dsimp only
        rw [if_neg]
        rintro ⟨hz, he⟩
        exact h (he ▸ hz)

/-! ## Claim theorems -/

/-- C2: for every byte stream and every way of splitting it into chunks
(including empty chunks and chunks with zero, one or many newlines), running
the line framer incrementally over the chunks with its carry-over buffer
yields exactly the same lines, in the same order, as framing the whole
stream at once — so no line is dropped, duplicated or reordered. -/
theorem C2_framer_incremental_eq_batch (chunks : List (List Char)) :
    feedChunks [] chunks = extractPy chunks.flatten := by
  rw [extractPy_eq_extractChars]
  simpa using feedChunks_eq_extract chunks [] (by simp)

/-- C9: `disconnect()` is idempotent: from every connection state (with the
reachable-state invariant that a connected client has a socket object), the
first `disconnect()` succeeds and leaves the client disconnected, and a
second `disconnect()` is a no-op that raises no error and returns the state
unchanged. -/
theorem C9_disconnect_idempotent (cs : ClientState)
    (hsock : cs.connected = true → cs.socket.isSome = true) :
    ∃ cs1 : ClientState, disconnect cs = some cs1 ∧ cs1.connected = false ∧
      disconnect cs1 = some cs1 := by
  by_cases hc : cs.connected = true
  · match hu : cs.socket with
    | none =>
      rw [hu] at hsock
      exact absurd (hsock hc) (by simp)
    | some u =>
      refine ⟨{ cs with stop_event := true, connected := false }, ?_, rfl, ?_⟩
      · simp only [disconnect, if_pos hc, hu]
      · simp only [disconnect, if_neg (by simp : ¬false = true)]
  · have hc' : cs.connected = false := by
      cases h : cs.connected
      · rfl
      · exact absurd h hc
    refine ⟨cs, ?_, hc', ?_⟩
    · simp only [disconnect, hc', if_neg (by simp : ¬false = true)]
    · simp only [disconnect, hc', if_neg (by simp : ¬false = true)]

/-- C9 witness: a freshly connected client at a concrete state. -/
theorem C9_disconnect_idempotent_witness :
    ∃ cs1 : ClientState,
      disconnect { mgr := initManager, socket := some (), stop_event := false,
                   connected := true } = some cs1 ∧
      cs1.connected = false ∧ disconnect cs1 = some cs1 :=
  C9_disconnect_idempotent
    { mgr := initManager, socket := some (), stop_event := false, connected := true }
    (by decide)

/-- C5 counterexample: for sensor 0, a first reading with raw timestamp 0 ms
computes the origin (the normalized list receives the entry `0`, so the
origin has been computed, with value `0`); a later reading with raw
timestamp `-5` ms (a smaller timestamp) makes `_normalize_timestamp`
recompute the origin — the zero sentinel conflates "computed as 0" with
"unset" — changing it from `0` to `-1/200` s.  This refutes "the origin
timestamp, once computed, never changes". -/
theorem C5_counterexample :
    ((process_line initManager ("0,0,0,0,0".toList)).data 0).normalized = [0] ∧
    (process_line initManager ("0,0,0,0,0".toList)).starting_time 0 = 0 ∧
    (process_line (process_line initManager ("0,0,0,0,0".toList))
        ("0,-5,0,0,0".toList)).starting_time 0 = mkRat (-1) 200 := by
  decide

/-- C5 amended: once a sensor's origin timestamp has been computed to a
NONZERO value, no later `process_line` (for any line, any sensor) and no
`clear_data` changes it; an origin equal to the sentinel `0` may be
recomputed when a smaller timestamp arrives. -/
theorem C5_amended_origin_immutable_once_nonzero (st : ManagerState)
    (line : List Char) (i : Fin 8) (h : st.starting_time i ≠ 0) :
    (process_line st line).starting_time i = st.starting_time i ∧
    (clear_data st).starting_time i = st.starting_time i :=
  ⟨process_line_starting_time_of_ne_zero st line i h, rfl⟩

/-- C5 witness: sensor 0's origin is 1/10 s after its first reading; an
append with a smaller timestamp (40 ms) and a clear both leave it alone. -/
theorem C5_amended_origin_immutable_once_nonzero_witness :
    (process_line (process_line initManager ("0,100,1,2,3".toList))
        ("0,40,1,2,3".toList)).starting_time 0 =
      (process_line initManager ("0,100,1,2,3".toList)).starting_time 0 ∧
    (clear_data (process_line initManager ("0,100,1,2,3".toList))).starting_time 0 =
      (process_line initManager ("0,100,1,2,3".toList)).starting_time 0 :=
  C5_amended_origin_immutable_once_nonzero
    (process_line initManager ("0,100,1,2,3".toList)) ("0,40,1,2,3".toList) 0
    (by decide)

/-- C10 counterexample: sensor 0 is seen with raw timestamp 0 ms, so its
origin is computed as the sentinel value 0.  After a clear, a reading at
500 ms is re-zeroed (normalized to 0) instead of being normalized against
the pre-clear origin (which would give 1/2 s): with a zero origin the
normalization recomputes a fresh origin.  This refutes the unconditional
"normalized against that sensor's pre-clear origin rather than being
re-zeroed". -/
theorem C10_counterexample :
    ((process_line initManager ("0,0,0,0,0".toList)).data 0).timestamp = [0] ∧
    (clear_data (process_line initManager ("0,0,0,0,0".toList))).starting_time 0 = 0 ∧
    ((process_line (clear_data (process_line initManager ("0,0,0,0,0".toList)))
        ("0,500,0,0,0".toList)).data 0).normalized = [0] ∧
    qsub (mkRat 1 2)
      ((clear_data (process_line initManager ("0,0,0,0,0".toList))).starting_time 0)
      = mkRat 1 2 ∧
    (0 : ℚ) ≠ mkRat 1 2 := by
  decide

/-- C10 amended: `clear_data` empties every per-sensor series, the
active-sensor set, the carry-over buffer and the actual interval, but
leaves the per-sensor `starting_time` array unchanged; consequently a
reading appended after a clear for a previously seen sensor whose stored
origin is NONZERO is normalized against that pre-clear origin rather than
being re-zeroed (a zero origin is indistinguishable from unset and is
recomputed). -/
theorem C10_amended_clear_preserves_origin (st : ManagerState) (line : List Char)
    (s : ℤ) (t x y z : ℚ) (i : Fin 8) (j : ℤ)
    (hslot : pySlot s = some i)
    (hp : parseLine line = some (s, t, x, y, z))
    (hv : st.starting_time i ≠ 0) :
    (clear_data st).starting_time = st.starting_time ∧
    (clear_data st).data j = emptySeries ∧
    (clear_data st).active_sensors = [] ∧
    (clear_data st).buffer = [] ∧
    (clear_data st).params3 = none ∧
    ((process_line (clear_data st) line).data s).normalized =
      [qsub t (st.starting_time i)] := by
  refine ⟨rfl, rfl, rfl, rfl, rfl, ?_⟩
  rw [process_line_success_eq (clear_data st) line s t x y z i hp hslot]
  dsimp only
  rw [if_pos rfl]
  have hcv : (clear_data st).starting_time i = st.starting_time i := rfl
  have hemp : (clear_data st).data s = emptySeries := rfl
  rw [hemp, hcv, if_neg hv]
  rfl

/-- C10 witness: sensor 0's origin after a 100 ms first reading is 1/10 s; a
post-clear reading at 200 ms is normalized to 2/10 - 1/10 = 1/10 s, not 0. -/
theorem C10_amended_clear_preserves_origin_witness :
    (clear_data (process_line initManager ("0,100,1,2,3".toList))).starting_time =
      (process_line initManager ("0,100,1,2,3".toList)).starting_time ∧
    (clear_data (process_line initManager ("0,100,1,2,3".toList))).data 0 = emptySeries ∧
    (clear_data (process_line initManager ("0,100,1,2,3".toList))).active_sensors = [] ∧
    (clear_data (process_line initManager ("0,100,1,2,3".toList))).buffer = [] ∧
    (clear_data (process_line initManager ("0,100,1,2,3".toList))).params3 = none ∧
    ((process_line (clear_data (process_line initManager ("0,100,1,2,3".toList)))
        ("0,200,4,5,6".toList)).data 0).normalized =
      [qsub (mkRat 1 5) ((process_line initManager ("0,100,1,2,3".toList)).starting_time 0)] :=
  C10_amended_clear_preserves_origin
    (process_line initManager ("0,100,1,2,3".toList)) ("0,200,4,5,6".toList)
    0 (mkRat 1 5) 4 5 6 0 0 (by decide) (by decide) (by decide)

theorem parseLine_none_of_short (line : List Char)
    (hcount : (pySplit ',' line).length < 5) : parseLine line = none := by
  simp only [parseLine]
  match h0 : pyInt ((pySplit ',' line).getD 0 []) with
  | none => rfl
  | some sid =>
    match h1 : (pySplit ',' line).get? 1 with
    | none => rfl
    | some p1 =>
      dsimp only
      match h2 : pyFloat p1 with
      | none => rfl
      | some tms =>
        dsimp only
        match h3 : ((pySplit ',' line).drop 2).take 3 with
        | [] => rfl
        | [pa] => rfl
        | [pa, pb] => rfl
        | pa :: pb :: pc :: rest =>
          exfalso
          have hlen := congrArg List.length h3
          simp only [List.length_take, List.length_drop, List.length_cons] at hlen
          omega

/-- On any successfully parsed line the timestamp (already converted to
seconds) is appended to that sensor's timestamp list — even when the sensor
id is out of the slot range (the append happens before the indexing error). -/
theorem process_line_timestamp_append (st : ManagerState) (line : List Char)
    (sid : ℤ) (t x y z : ℚ)
    (hp : parseLine line = some (sid, t, x, y, z)) :
    ((process_line st line).data sid).timestamp = (st.data sid).timestamp ++ [t] := by
  match hslot : pySlot sid with
  | none =>
    rw [process_line_badslot_eq st line sid t x y z hp hslot]
    dsimp only
    rw [if_pos rfl]
  | some i =>
    rw [process_line_success_eq st line sid t x y z i hp hslot]
    dsimp only
    rw [if_pos rfl]

/-- The parsed timestamp is the second field's float value divided by 1000
(the `* 0.001` milliseconds-to-seconds conversion). -/
theorem parseLine_timestamp_ms_to_s (line p1 : List Char) (sid : ℤ)
    (t x y z tms : ℚ)
    (hp : parseLine line = some (sid, t, x, y, z))
    (h1 : (pySplit ',' line).get? 1 = some p1)
    (h2 : pyFloat p1 = some tms) :
    t = qmul tms (mkRat 1 1000) := by
  simp only [parseLine] at hp
  match h0 : pyInt ((pySplit ',' line).getD 0 []) with
  | none => rw [h0] at hp; exact absurd hp (by simp)
  | some sid' =>
    rw [h0] at hp
    dsimp only at hp
    rw [h1] at hp
    dsimp only at hp
    rw [h2] at hp
    dsimp only at hp
    match h3 : ((pySplit ',' line).drop 2).take 3 with
    | [] => rw [h3] at hp; exact absurd hp (by simp)
    | [pa] => rw [h3] at hp; exact absurd hp (by simp)
    | [pa, pb] => rw [h3] at hp; exact absurd hp (by simp)
    | pa :: pb :: pc :: rest =>
      match rest with
      | _ :: _ => rw [h3] at hp; exact absurd hp (by simp)
      | [] =>
        rw [h3] at hp
        dsimp only at hp
        match hxa : pyFloat pa with
        | none => rw [hxa] at hp; exact absurd hp (by simp)
        | some xv =>
          match hxb : pyFloat pb with
          | none => rw [hxa, hxb] at hp; exact absurd hp (by simp)
          | some yv =>
            match hxc : pyFloat pc with
            | none => rw [hxa, hxb, hxc] at hp; exact absurd hp (by simp)
            | some zv =>
              rw [hxa, hxb, hxc] at hp
              dsimp only at hp
              simp only [Option.some.injEq, Prod.mk.injEq] at hp
              exact hp.2.1.symm

/-- C8 counterexample: a line with SIX comma-separated fields parses
successfully — `data_parts[2:5]` silently ignores the extra field — and a
reading is appended, refuting "field count not exactly five implies the
parse fails and nothing is appended". -/
theorem C8_counterexample :
    (pySplit ',' ("3,1500.0,0.1,0.2,9.8,42".toList)).length = 6 ∧
    ((process_line initManager ("3,1500.0,0.1,0.2,9.8,42".toList)).data 3).timestamp
      = [mkRat 3 2] ∧
    (process_line initManager ("3,1500.0,0.1,0.2,9.8,42".toList)).active_sensors = [3] ∧
    (process_line initManager ("3,1500.0,0.1,0.2,9.8,42".toList)).status = none := by
  decide

/-- C8 amended: the parser accepts lines with AT LEAST five comma-separated
fields (an integer first field and float second-to-fifth fields; any fields
beyond the fifth are ignored).  A non-empty line with fewer than five fields
fails: the state is unchanged except for the `Invalid data` report.  A
successful parse appends the reading's timestamp converted from
milliseconds to seconds. -/
theorem C8_amended_parser_contract (st : ManagerState) (line p1 : List Char)
    (sid : ℤ) (t x y z tms : ℚ) :
    (line ≠ [] → (pySplit ',' line).length < 5 →
      process_line st line = { st with status := some (.invalidData line) }) ∧
    (parseLine line = some (sid, t, x, y, z) →
      ((process_line st line).data sid).timestamp = (st.data sid).timestamp ++ [t]) ∧
    (parseLine line = some (sid, t, x, y, z) →
      (pySplit ',' line).get? 1 = some p1 → pyFloat p1 = some tms →
      t = qmul tms (mkRat 1 1000)) := by
  refine ⟨?_, ?_, ?_⟩
  · intro hl hcount
    exact process_line_fail_eq st line hl (parseLine_none_of_short line hcount)
  · intro hp
    exact process_line_timestamp_append st line sid t x y z hp
  · intro hp h1 h2
    exact parseLine_timestamp_ms_to_s line p1 sid t x y z tms hp h1 h2

/-- C8 witness: the four-field line `1,2,3` is rejected with only a status
report; the spec's example line `3,1500.0,0.1,0.2,9.8` appends timestamp
1.5 s (1500 ms) for sensor 3. -/
theorem C8_amended_parser_contract_witness :
    process_line initManager ("1,2,3".toList) =
      { initManager with status := some (.invalidData ("1,2,3".toList)) } ∧
    ((process_line initManager ("3,1500.0,0.1,0.2,9.8".toList)).data 3).timestamp
      = [mkRat 3 2] ∧
    mkRat 3 2 = qmul 1500 (mkRat 1 1000) := by
  refine ⟨?_, ?_, ?_⟩
  · exact (C8_amended_parser_contract initManager ("1,2,3".toList) [] 0 0 0 0 0 0).1
      (by decide) (by decide)
  · have h := (C8_amended_parser_contract initManager ("3,1500.0,0.1,0.2,9.8".toList)
      ("1500.0".toList) 3 (mkRat 3 2) (mkRat 1 10) (mkRat 1 5) (mkRat 49 5) 1500).2.1
      (by decide)
    simpa using h
  · exact (C8_amended_parser_contract initManager ("3,1500.0,0.1,0.2,9.8".toList)
      ("1500.0".toList) 3 (mkRat 3 2) (mkRat 1 10) (mkRat 1 5) (mkRat 49 5) 1500).2.2
      (by decide) (by decide) (by decide)

/-- The two-sample interval the monitor computes:
`round((t[-1] - t[-2]) * 1000)` over the reference sensor's raw timestamps
(`tcp_client.py` lines 146–147). -/
def twoSampleInterval (st : ManagerState) : ℤ :=
  let ts := (st.data (listMinZ st.active_sensors)).timestamp
  pyRound (qmul (qsub (ts.getD (ts.length - 1) 0) (ts.getD (ts.length - 2) 0)) 1000)

/-- C3 counterexample: two readings of sensor 0 with equal raw timestamps
(100 ms) make the monitor compute `actual_interval_ms = 0`.  The expected
interval is 1000 ms, so `|expected - actual| = 990 > 10`, yet no drift
warning is raised: `_check_for_interval_mismatch` guards on the truthiness
of `params[3]` and the integer `0` is falsy in Python.  This refutes the
"warning iff |expected - actual| > 10" clause. -/
theorem C3_counterexample :
    (update_actual_interval (process_line (process_line initManager
        ("0,100,0,0,0".toList)) ("0,100,0,0,0".toList))).params3 = some 0 ∧
    (process_line (process_line initManager ("0,100,0,0,0".toList))
        ("0,100,0,0,0".toList)).params2 = 1000 ∧
    10 < ((1000 : ℤ) - 0).natAbs ∧
    (update_actual_interval (process_line (process_line initManager
        ("0,100,0,0,0".toList)) ("0,100,0,0,0".toList))).mismatch_warning = false := by
  decide

/-- C3 amended: when `actual_interval_ms` is unset and the reference sensor
(the numerically lowest active sensor) has at least two readings, the
monitor sets `actual_interval_ms = round((t[-1] - t[-2]) * 1000)` (and the
GUI readout); afterwards, when the computed value is nonzero, a drift
warning is raised iff `|expected_interval_ms - actual_interval_ms| > 10`,
and cleared otherwise; when the computed value is zero, the mismatch check
is skipped entirely (the zero is falsy), so no warning is raised or
cleared. -/
theorem C3_amended_interval_monitor (st : ManagerState)
    (hact : st.active_sensors ≠ [])
    (hp3 : st.params3 = none)
    (hlen : 2 ≤ ((st.data (listMinZ st.active_sensors)).timestamp).length) :
    (update_actual_interval st).params3 = some (twoSampleInterval st) ∧
    (update_actual_interval st).actual_interval_info = some (twoSampleInterval st) ∧
    (twoSampleInterval st ≠ 0 →
      ((update_actual_interval st).mismatch_warning = true ↔
        10 < (st.params2 - twoSampleInterval st).natAbs)) ∧
    (twoSampleInterval st = 0 →
      (update_actual_interval st).mismatch_warning = st.mismatch_warning) := by
  have hf : falsyInterval st.params3 = true := by rw [hp3]; rfl
  simp only [update_actual_interval, if_neg hact, twoSampleInterval]
  rw [if_pos ⟨hlen, hf⟩]
  simp only [check_for_interval_mismatch]
  by_cases hz : twoSampleInterval st = 0
  · have : falsyInterval (some (twoSampleInterval st)) = true := by
      simp [falsyInterval, hz]
    simp only [twoSampleInterval] at this
    rw [if_pos this]
    simp only [twoSampleInterval] at hz
    refine ⟨rfl, rfl, fun hne => absurd hz hne, fun _ => rfl⟩
  · have : ¬falsyInterval (some (twoSampleInterval st)) = true := by
      simp [falsyInterval, hz]
    simp only [twoSampleInterval] at this
    rw [if_neg this]
    simp only [twoSampleInterval] at hz
    refine ⟨?_, ?_, ?_, ?_⟩
    · split <;> rfl
    · split <;> rfl
    · intro _
      constructor
      · intro hw
        split at hw
        · rename_i hm
          exact hm
        · exact absurd hw (by simp)
      · intro hm
        split
        · rfl
        · rename_i hm'
          exact absurd hm hm'
    · intro hz0
      exact absurd hz0 (by simpa [twoSampleInterval] using hz)

/-- The spec's worked example: sensor 0 produces readings with raw
timestamps 1.000 s and 1.050 s (wire values 1000 ms and 1050 ms). -/
def intervalExample : ManagerState :=
  process_line (process_line initManager ("0,1000,0,0,0".toList)) ("0,1050,0,0,0".toList)

/-- C3 witness: on the spec's example the monitor computes 50 ms and, with
`expected_interval_ms = 1000`, raises the drift warning. -/
theorem C3_amended_interval_monitor_witness :
    (update_actual_interval intervalExample).params3 = some 50 ∧
    (update_actual_interval intervalExample).mismatch_warning = true := by
  have h := C3_amended_interval_monitor intervalExample (by decide) (by decide) (by decide)
  refine ⟨?_, ?_⟩
  · rw [h.1]
    decide
  · exact (h.2.2.1 (by decide)).mpr (by decide)

/-- C6 counterexample: within one session (no clear anywhere in the
construction), two equal timestamps make the monitor assign
`actual_interval_ms = 0`; since `0` is falsy, a later append recomputes it
and overwrites it with 1000.  This refutes "computed and assigned at most
once per session". -/
theorem C6_counterexample :
    (update_actual_interval (process_line (process_line initManager
        ("0,100,0,0,0".toList)) ("0,100,0,0,0".toList))).params3 = some 0 ∧
    (update_actual_interval (process_line (update_actual_interval
        (process_line (process_line initManager ("0,100,0,0,0".toList))
          ("0,100,0,0,0".toList))) ("0,1100,0,0,0".toList))).params3 = some 1000 := by
  decide

/-- C6 amended: once `actual_interval_ms` has been set to a NONZERO value,
no subsequent append recomputes or overwrites it (`process_line` never
touches it and `_update_actual_interval` leaves the whole state unchanged),
until `clear_data` resets it to unset; a computed value of 0 is
indistinguishable from unset and may be overwritten. -/
theorem C6_amended_interval_set_once (st : ManagerState) (v : ℤ) (l : List Char)
    (hv : st.params3 = some v) (h0 : v ≠ 0) :
    update_actual_interval st = st ∧
    (process_line st l).params3 = some v ∧
    (clear_data st).params3 = none := by
  refine ⟨?_, ?_, rfl⟩
  · have hf : falsyInterval st.params3 = false := by
      rw [hv]
      simp [falsyInterval, h0]
    simp only [update_actual_interval]
    by_cases hact : st.active_sensors = []
    · rw [if_pos hact]
    · rw [if_neg hact, if_neg]
      rintro ⟨-, hff⟩
      rw [hf] at hff
      exact Bool.noConfusion hff
  · rw [process_line_params3, hv]

/-- C6 witness: after the monitor has computed 50 ms on the example state,
a further reading and monitor run change nothing, and a clear resets the
interval to unset. -/
theorem C6_amended_interval_set_once_witness :
    update_actual_interval (update_actual_interval intervalExample) =
      update_actual_interval intervalExample ∧
    (process_line (update_actual_interval intervalExample)
        ("0,1100,0,0,0".toList)).params3 = some 50 ∧
    (clear_data (update_actual_interval intervalExample)).params3 = none :=
  C6_amended_interval_set_once (update_actual_interval intervalExample) 50
    ("0,1100,0,0,0".toList) (by decide) (by decide)

/-- A connected client that is actively recording (stop event clear), with
an empty carry-over buffer. -/
def recordingClient : ClientState :=
  { mgr := initManager, socket := some (), stop_event := false, connected := true }

/-- C1 exhibit: receiving the chunk `"abc\n"` while recording kills the
receive thread.  `process_line` catches the parse error and reports
`Invalid data: abc`, but `_update_gui_table` then indexes `parts[2]` of the
one-field line; the resulting `IndexError` is caught by none of the
`except` clauses of `_receive_data`, so the loop dies — while the client
still believes it is connected. -/
theorem C1_crash_on_short_malformed_line :
    (receiveStep recordingClient (.data ("abc\n".toList))).isCrashed = true ∧
    (receiveStep recordingClient (.data ("abc\n".toList))).state.mgr.status
      = some (.invalidData ("abc".toList)) ∧
    (receiveStep recordingClient (.data ("abc\n".toList))).state.connected = true := by
  have hstep : receiveStep recordingClient (.data ("abc\n".toList)) =
      .crashed { recordingClient with
        mgr := process_line { initManager with buffer := [] }
          (pyStrip ("abc".toList)) } := by
    have hb : initManager.buffer = [] := rfl
    simp only [receiveStep, recordingClient]
    rw [if_neg (by decide)]
    simp only [hb, List.nil_append]
    rw [recvLoopInner_step { initManager with buffer := ("abc\n".toList) }
      ("abc\n".toList) ("abc".toList) [] (by decide)]
    rw [if_neg (by decide)]
  rw [hstep]
  refine ⟨rfl, ?_, rfl⟩
  decide

/-- C4 counterexample: a zero-length read (the empty string `recv` returns
when the peer closes) is not detected by the receive loop: the iteration
leaves the state exactly as it was — no failure report, no disconnect, and
the loop continues (spinning on further empty reads) instead of exiting.
This refutes "on a zero-length read the loop reports the reason, performs
an orderly disconnect and exits". -/
theorem C4_counterexample :
    receiveStep recordingClient (.data []) = .contin recordingClient ∧
    (receiveStep recordingClient (.data [])).state.connected = true ∧
    (receiveStep recordingClient (.data [])).state.mgr.status = none := by
  have hstep : receiveStep recordingClient (.data []) = .contin recordingClient := by
    have hb : initManager.buffer = [] := rfl
    have hm0 : { initManager with buffer := initManager.buffer ++ ([] : List Char) }
        = initManager := by
      rw [List.append_nil]
    simp only [receiveStep, recordingClient]
    rw [if_neg (by decide)]
    rw [hm0, List.append_nil]
    rw [recvLoopInner_done initManager initManager.buffer (by rw [hb]; rfl)]
  rw [hstep]
  exact ⟨rfl, rfl, rfl⟩

/-- C4 amended: while recording (stop event clear, connected clients having
a socket object, carry-over buffer holding no complete line), the receive
loop handles `ConnectionReset`/`BrokenPipe`/`ConnectionAborted` by
reporting `Connection lost.`, disconnecting and exiting, and a read timeout
by reporting the timeout message, disconnecting and exiting — but a
ZERO-LENGTH read is not detected: the iteration returns the state
unchanged and the loop continues. -/
theorem C4_amended_loop_exit_behavior (cs : ClientState)
    (hstop : cs.stop_event = false)
    (hsock : cs.connected = true → cs.socket.isSome = true)
    (hbuf : '\n' ∉ cs.mgr.buffer) :
    (receiveStep cs .errConnReset).isExited = true ∧
    (receiveStep cs .errConnReset).state.mgr.status = some .connectionLost ∧
    (receiveStep cs .errConnReset).state.connected = false ∧
    (receiveStep cs .errTimeout).isExited = true ∧
    (receiveStep cs .errTimeout).state.mgr.status = some .connectionTimedOut ∧
    (receiveStep cs .errTimeout).state.connected = false ∧
    receiveStep cs (.data []) = .contin cs := by
  have hif : ¬cs.stop_event = true := by rw [hstop]; exact Bool.false_ne_true
  have herr : ∀ m : StatusMsg,
      ∃ cs2, disconnect { cs with mgr := { cs.mgr with status := some m } } = some cs2 ∧
        cs2.connected = false ∧ cs2.mgr.status = some m := by
    intro m
    by_cases hc : cs.connected = true
    · match hu : cs.socket with
      | none => exact absurd (hsock hc) (by rw [hu]; simp)
      | some u =>
        apply Exists.intro ({ mgr := { cs.mgr with status := some m }, socket := cs.socket, stop_event := true, connected := false } : ClientState)
        refine ⟨?_, rfl, rfl⟩
        simp only [disconnect]
        rw [if_pos hc]
        rw [hu]
    · have hc' : cs.connected = false := by
        cases h : cs.connected
        · rfl
        · exact absurd h hc
      apply Exists.intro ({ cs with mgr := { cs.mgr with status := some m } } : ClientState)
      refine ⟨?_, hc', rfl⟩
      simp only [disconnect]
      rw [if_neg]
      exact fun h => hc h
  obtain ⟨cs2, hd2, hc2, hs2⟩ := herr .connectionLost
  obtain ⟨cs3, hd3, hc3, hs3⟩ := herr .connectionTimedOut
  have hreset : receiveStep cs .errConnReset = .exited cs2 := by
    simp only [receiveStep, if_neg hif]
    rw [hd2]
  have htime : receiveStep cs .errTimeout = .exited cs3 := by
    simp only [receiveStep, if_neg hif]
    rw [hd3]
  have hzero : receiveStep cs (.data []) = .contin cs := by
    simp only [receiveStep, if_neg hif]
    have hm0 : { cs.mgr with buffer := cs.mgr.buffer ++ ([] : List Char) } = cs.mgr := by
      rw [List.append_nil]
    rw [hm0, List.append_nil]
    rw [recvLoopInner_done cs.mgr cs.mgr.buffer (splitFirstNl_eq_none hbuf)]
  rw [hreset, htime, hzero]
  exact ⟨rfl, hs2, hc2, rfl, hs3, hc3, rfl⟩

/-- C4 witness: the behaviors at the concrete recording client state. -/
theorem C4_amended_loop_exit_behavior_witness :
    (receiveStep recordingClient .errConnReset).isExited = true ∧
    (receiveStep recordingClient .errConnReset).state.mgr.status
      = some .connectionLost ∧
    (receiveStep recordingClient .errConnReset).state.connected = false ∧
    (receiveStep recordingClient .errTimeout).isExited = true ∧
    (receiveStep recordingClient .errTimeout).state.mgr.status
      = some .connectionTimedOut ∧
    (receiveStep recordingClient .errTimeout).state.connected = false ∧
    receiveStep recordingClient (.data []) = .contin recordingClient :=
  C4_amended_loop_exit_behavior recordingClient (by decide) (by decide) (by decide)

/-! ## Normalization invariant (C7) -/

/-- A line respects the wire format's sensor-id range: either it fails to
parse, or its parsed sensor id is one of the hardware channels 0–7 (the
data model's valid range; ids outside it index the 8-slot `starting_time`
list wrongly). -/
def goodLine (line : List Char) : Bool :=
  match parseLine line with
  | none => true
  | some (sid, _, _, _, _) => decide (0 ≤ sid ∧ sid < 8)

/-- Feeding a history of lines through `process_line`, oldest first. -/
def runLines (st : ManagerState) (ls : List (List Char)) : ManagerState :=
  ls.foldl process_line st

theorem pySlot_of_range {sid : ℤ} (h0 : 0 ≤ sid) (h8 : sid < 8) :
    pySlot sid = some ⟨sid.toNat, by omega⟩ := by
  simp only [pySlot]
  rw [dif_pos ⟨h0, h8⟩]

/-- The store invariant: for every in-range sensor, an empty series goes
with a zero (unset) origin slot and an empty normalized list, and a
non-empty series has `0` as its first stored normalized timestamp. -/
def StoreInv (st : ManagerState) : Prop :=
  ∀ (sid : ℤ) (h0 : 0 ≤ sid) (h8 : sid < 8),
    ((st.data sid).timestamp = [] →
      st.starting_time ⟨sid.toNat, by omega⟩ = 0 ∧ (st.data sid).normalized = []) ∧
    ((st.data sid).timestamp ≠ [] → (st.data sid).normalized.head? = some 0)

theorem storeInv_init : StoreInv initManager := by
  intro sid h0 h8
  constructor
  · intro _
    exact ⟨rfl, rfl⟩
  · intro h
    exact absurd rfl h

theorem storeInv_process_line {st : ManagerState} {line : List Char}
    (hinv : StoreInv st) (hg : goodLine line = true) :
    StoreInv (process_line st line) := by
  by_cases hl : line = []
  · rw [hl, process_line_empty_eq]
    exact hinv
  · match hp : parseLine line with
    | none =>
      rw [process_line_fail_eq st line hl hp]
      exact hinv
    | some (sid0, t, x, y, z) =>
      have hrange : 0 ≤ sid0 ∧ sid0 < 8 := by
        have hg' := hg
        simp only [goodLine, hp] at hg'
        exact of_decide_eq_true hg'
      have hslot : pySlot sid0 = some ⟨sid0.toNat, by omega⟩ :=
        pySlot_of_range hrange.1 hrange.2
      rw [process_line_success_eq st line sid0 t x y z _ hp hslot]
      intro sid h0 h8
      rcases hinv sid h0 h8 with ⟨hemp, hnonemp⟩
      by_cases hsame : sid = sid0
      · subst hsame
        constructor
        · intro hempty
          dsimp only at hempty
          rw [if_pos rfl] at hempty
          exact absurd hempty (by simp)
        · intro _
          dsimp only
          rw [if_pos rfl]
          dsimp only
          by_cases hts : (st.data sid).timestamp = []
          · obtain ⟨hzero, hnorm⟩ := hemp hts
            rw [hts, hnorm, if_pos hzero]
            have : listMinQ ([] ++ [t]) = t := rfl
            rw [this]
            have : qsub t t = 0 := by rw [qsub_eq]; ring
            rw [this]
            rfl
          · have hh := hnonemp hts
            have hn : (st.data sid).normalized ≠ [] := by
              intro he
              rw [he] at hh
              exact Option.noConfusion hh
            obtain ⟨a, A', hA⟩ := List.exists_cons_of_ne_nil hn
            rw [hA]
            rw [hA] at hh
            simpa using hh
      · have hfin : (⟨sid.toNat, by omega⟩ : Fin 8) ≠ ⟨sid0.toNat, by omega⟩ := by
          intro he
          apply hsame
          have hv : sid.toNat = sid0.toNat := congrArg Fin.val he
          omega
        constructor
        · intro hts
          dsimp only at hts ⊢
          rw [if_neg hsame] at hts
          obtain ⟨hz, hn⟩ := hemp hts
          constructor
          · rw [if_neg]
            · exact hz
            · rintro ⟨-, hfe⟩
              exact hfin hfe
          · rw [if_neg hsame]
            exact hn
        · intro hts
          dsimp only at hts ⊢
          rw [if_neg hsame] at hts ⊢
          exact hnonemp hts

theorem storeInv_runLines (ls : List (List Char)) :
    ∀ st : ManagerState, StoreInv st → (∀ l ∈ ls, goodLine l = true) →
      StoreInv (runLines st ls) := by
  induction ls with
  | nil => intro st hinv _; exact hinv
  | cons l ls ih =>
    intro st hinv hg
    exact ih (process_line st l) (storeInv_process_line hinv (hg l (by simp)))
      (fun l' hl' => hg l' (by simp [hl']))

/-- C7: for every in-range sensor and every store state reachable by
appending well-formed wire lines (sensor ids in the hardware range 0–7) to
the fresh store, if the sensor's series is non-empty then the stored
normalized timestamp of its oldest reading — the reading that carried the
sensor's first-seen timestamp — is `0`; since the statement holds for every
such history, it remains `0` no matter how many subsequent readings are
appended. -/
theorem C7_first_reading_normalized_zero (history : List (List Char)) (s : ℤ)
    (hgood : ∀ l ∈ history, goodLine l = true)
    (h0 : 0 ≤ s) (h8 : s < 8)
    (hne : ((runLines initManager history).data s).timestamp ≠ []) :
    ((runLines initManager history).data s).normalized.head? = some 0 :=
  ((storeInv_runLines history initManager storeInv_init hgood) s h0 h8).2 hne

/-- C7 witness: after two readings for sensor 0 the first stored normalized
timestamp is 0. -/
theorem C7_first_reading_normalized_zero_witness :
    ((runLines initManager
        [("0,100,1,2,3".toList), ("0,250,4,5,6".toList)]).data 0).normalized.head?
      = some 0 :=
  C7_first_reading_normalized_zero
    [("0,100,1,2,3".toList), ("0,250,4,5,6".toList)] 0
    (by decide) (by decide) (by decide) (by decide)
